import Mathlib

/-!
Verification development for the Keithley 2700 driver module
(`pymeasure/instruments/keithley/keithley2700.py`).

The measurement-stream decoder `KeithleyData.__init__` and the facade's
`range` setter are shallowly embedded here:

* raw text is `List Char` (`Str`);
* numeric columns are parsed into `ℚ` (the source converts fields with
  IEEE-754 doubles via `np.float`; the decimal grammar is modelled
  exactly, the value arithmetic idealized in `ℚ`);
* `np.byte` (int8) casting of the limits column is modelled by `toInt8`
  (two's-complement wrap-around, as the 2017-era numpy aliases did);
* fallible parsing returns `Except KError _` mirroring the exceptions
  (`NotImplementedError`, numpy's `ValueError` on a bad numeric field).

The decoder is a pure function of `(format, elements, data_string)`;
the source's stray `print(elements)` debug line is a side effect with no
bearing on the produced data and is not modelled.
-/

/-- Raw instrument text, one character per list entry. -/
abbrev Str := List Char

/-- Python `data_string.split(',')`: split on every comma, keeping empty
pieces (so the result always has one more piece than there are commas). -/
def splitComma : Str → List Str
  | [] => [[]]
  | c :: rest =>
    if c = ',' then [] :: splitComma rest
    else
      match splitComma rest with
      | [] => [[c]]
      | f :: fs => (c :: f) :: fs

/-- Fuel-indexed worker for `replaceAll`; structural recursion on the
fuel keeps the function kernel-reducible.  Any fuel at least the length
of the string gives the same answer (`replaceAllF_congr` below). -/
def replaceAllF (p : Str) : Nat → Str → Str
  | _, [] => []
  | 0, s => s
  | fuel + 1, c :: rest =>
    if p ≠ [] ∧ p.isPrefixOf (c :: rest) then
      replaceAllF p fuel ((c :: rest).drop p.length)
    else
      c :: replaceAllF p fuel rest

/-- Python `s.replace(p, '')`: delete every occurrence of `p`, scanning
left to right, non-overlapping.  (For `p = ''` Python's
`s.replace('', '')` returns `s` unchanged, as does this definition.) -/
def replaceAll (p : Str) (s : Str) : Str :=
  replaceAllF p s.length s

/-- The loop `for unit in self.UNITS: data_string = data_string.replace(unit, '')`
(lines 84-85), generalized over the token list so that different
processing orders can be compared. -/
def stripTokens (tokens : List Str) (s : Str) : Str :=
  tokens.foldl (fun acc tok => replaceAll tok acc) s

/-- `KeithleyData.UNITS` (line 59), in the source's order. -/
def UNITS : List Str :=
  [("ADC").data, ("AAC").data, ("VDC").data, ("VAC").data, ("SECS").data,
   ("HZ").data, ("SEC").data, ("RDNG#").data, ("LIMITS").data]

/-- Worker for the Python extended slice: `k` counts how many entries
are still to be skipped before the next kept one. -/
def takeEveryAux (step : Nat) : Nat → List α → List α
  | _, [] => []
  | 0, x :: xs => x :: takeEveryAux step (step - 1) xs
  | k + 1, _ :: xs => takeEveryAux step k xs

/-- Python extended slice `l[::step]` (for `step ≥ 1`): every `step`-th
entry, keeping indices `0, step, 2*step, …`. -/
def takeEvery (step : Nat) (l : List α) : List α :=
  takeEveryAux step 0 l

/-- Python `data[start::count]` (the `self.data[start::count]` slices of
lines 92-104). -/
def pySlice (l : List α) (start step : Nat) : List α :=
  takeEvery step (l.drop start)

/-- Decimal digit value, `none` for a non-digit. -/
def digToNat (c : Char) : Option Nat :=
  if '0' ≤ c ∧ c ≤ '9' then some (c.toNat - ('0').toNat) else none

/-- Parse a non-empty all-digit string to a natural number. -/
def digitsToNat (s : Str) : Option Nat :=
  if s.isEmpty then none
  else s.foldlM (fun acc c => (digToNat c).map (fun d => acc * 10 + d)) 0

/-- Strip one optional leading sign; returns (isNegative, rest). -/
def readSign : Str → Bool × Str
  | '-' :: r => (true, r)
  | '+' :: r => (false, r)
  | r => (false, r)

/-- Split at the first character satisfying `p`; `none` if absent. -/
def splitOnceP (p : Char → Bool) : Str → Str × Option Str
  | [] => ([], none)
  | c :: r =>
    if p c then ([], some r)
    else
      let (a, b) := splitOnceP p r
      (c :: a, b)

/-- Unsigned decimal mantissa `ddd`, `ddd.fff`, `.fff` or `ddd.`
(at least one digit overall), returned as a pair `(num, e)` denoting the
exact rational `num / 10 ^ e`. -/
def parseUnsigned (s : Str) : Option (Nat × Nat) :=
  match splitOnceP (fun c => c = '.') s with
  | (ip, none) => (digitsToNat ip).map (fun n => (n, 0))
  | (ip, some fp) =>
    if ip.isEmpty ∧ fp.isEmpty then none
    else
      match (if ip.isEmpty then some 0 else digitsToNat ip),
            (if fp.isEmpty then some 0 else digitsToNat fp) with
      | some i, some f => some (i * 10 ^ fp.length + f, fp.length)
      | _, _ => none

/-- The float grammar accepted for a numeric field (`np.float`
conversion of one comma-separated field): optional sign, decimal
mantissa, optional `e`/`E` exponent.  Values are exact rationals; the
special floats (`inf`, `nan`) and surrounding whitespace do not occur in
the instrument's fields and are not modelled. -/
def parseFloat? (s : Str) : Option ℚ :=
  let (neg, s1) := readSign s
  let (mant, expo?) := splitOnceP (fun c => c = 'e' || c = 'E') s1
  let scaled : Option (Nat × Nat) :=
    match expo? with
    | none => parseUnsigned mant
    | some e =>
      let (eneg, e1) := readSign e
      match parseUnsigned mant, digitsToNat e1 with
      | some (n, d), some k =>
        if eneg then some (n, d + k) else some (n * 10 ^ k, d)
      | _, _ => none
  scaled.map (fun nd =>
    mkRat (if neg then -(nd.1 : Int) else (nd.1 : Int)) (10 ^ nd.2))

/-- `np.int` conversion of one field: optional sign, decimal digits. -/
def parseInt? (s : Str) : Option Int :=
  let (neg, s1) := readSign s
  (digitsToNat s1).map (fun n => if neg then -(n : ℤ) else (n : ℤ))

/-- The `np.byte` (int8) cast applied to the limits column (line 104):
two's-complement wrap-around into `[-128, 127]`. -/
def toInt8 (n : Int) : Int :=
  (n + 128) % 256 - 128

/-- One limit flag (lines 105-108): numpy computes `limits & mask` on the
int8 bit patterns and then casts to bool (nonzero test).  `w % 256` is
the 8-bit pattern of the stored int8 value `w`; the masks used are
`0x01, 0x02, 0x04, 0x08`. -/
def limitFlag (w : Int) (mask : Nat) : Bool :=
  ((w % 256).toNat &&& mask) != 0

/-- The element names accepted in the `elements` list
(`DATA_ELEMENTS` keys / the strings tested on lines 81-103). -/
inductive Element
  | readings
  | timestamp
  | reading_number
  | channel
  | limits
  | units
deriving DecidableEq

/-- The transfer formats (`DATA_FORMAT` keys): `ascii` is text,
`single`/`double` are the two binary IEEE-754 precisions. -/
inductive Format
  | ascii
  | single
  | double
deriving DecidableEq

/-- The exceptions the modelled code can raise:
`NotImplementedError` (line 113), `ValueError` (numpy numeric
conversion of a malformed field; also the mode checks of the facade),
`KeyError` (a failed inverse-dictionary lookup in the facade). -/
inductive KError
  | notImplemented
  | valueError
  | keyError
deriving DecidableEq

/-- The decoded record set: the fields assigned by
`KeithleyData.__init__` (lines 68-109), `none` when the corresponding
element was not requested. -/
structure KeithleyData where
  readings : Option (List ℚ)
  timestamps : Option (List ℚ)
  reading_numbers : Option (List Int)
  channels : Option (List Str)
  limits : Option (List Int)
  limits_high2 : Option (List Bool)
  limits_low2 : Option (List Bool)
  limits_high1 : Option (List Bool)
  limits_low1 : Option (List Bool)
deriving DecidableEq

/-- All-or-nothing elementwise conversion of a column, as
`np.array(fields, dtype=...)` performs: any unparsable field aborts the
whole conversion. -/
def mapOpt (f : α → Option β) : List α → Option (List β)
  | [] => some []
  | x :: xs =>
    match f x, mapOpt f xs with
    | some y, some ys => some (y :: ys)
    | _, _ => none

/-- Convert one column when its element is active (`none` otherwise);
a failed numeric conversion raises numpy's `ValueError`. -/
def col? (active : Bool) (xs : List Str) (p : Str → Option α) :
    Except KError (Option (List α)) :=
  match active with
  | false => Except.ok none
  | true =>
    match mapOpt p xs with
    | some v => Except.ok (some v)
    | none => Except.error KError.valueError

/-- Positions of the columns: the source initializes `start = 0` and
increments it after each element kind that is present (lines 89-109);
these are the successive values of `start` seen by the timestamp,
reading-number, channel and limits branches. -/
def startT (hasR : Bool) : Nat := if hasR then 1 else 0

/-- Value of `start` at the reading-number branch. -/
def startN (hasR hasT : Bool) : Nat := startT hasR + (if hasT then 1 else 0)

/-- Value of `start` at the channel branch. -/
def startC (hasR hasT hasN : Bool) : Nat := startN hasR hasT + (if hasN then 1 else 0)

/-- Value of `start` at the limits branch. -/
def startL (hasR hasT hasN hasC : Bool) : Nat := startC hasR hasT hasN + (if hasC then 1 else 0)

/-- The extraction loop of lines 89-109, with the membership tests and
the per-record field count already evaluated.  The source processes the
element kinds in the fixed order readings, timestamp, reading_number,
channel, limits; a failed numeric conversion aborts the construction
with the corresponding exception (explicit error propagation in place
of Python exception unwinding). -/
def decodeCore (hasR hasT hasN hasC hasL : Bool) (count : Nat)
    (data : List Str) : Except KError KeithleyData :=
  match col? hasR (pySlice data 0 count) parseFloat? with
  | Except.error e => Except.error e
  | Except.ok rs =>
    match col? hasT (pySlice data (startT hasR) count) parseFloat? with
    | Except.error e => Except.error e
    | Except.ok ts =>
      match col? hasN (pySlice data (startN hasR hasT) count) parseInt? with
      | Except.error e => Except.error e
      | Except.ok ns =>
        match col? hasC (pySlice data (startC hasR hasT hasN) count) (fun s => some s) with
        | Except.error e => Except.error e
        | Except.ok cs =>
          match col? hasL (pySlice data (startL hasR hasT hasN hasC) count) parseInt? with
          | Except.error e => Except.error e
          | Except.ok lsRaw =>
            let ls := lsRaw.map (List.map toInt8)
            Except.ok {
              readings := rs
              timestamps := ts
              reading_numbers := ns
              channels := cs
              limits := ls
              limits_high2 := ls.map (List.map (fun w => limitFlag w 1))
              limits_low2 := ls.map (List.map (fun w => limitFlag w 2))
              limits_high1 := ls.map (List.map (fun w => limitFlag w 4))
              limits_low1 := ls.map (List.map (fun w => limitFlag w 8)) }

/-- The ASCII branch of `KeithleyData.__init__` (lines 78-109): the
per-record field count is the element-list length, reduced by one when
`units` is a member (lines 80-83); the unit tokens are stripped before
splitting when `units` is a member (lines 84-85); then the text is split
on commas (line 87) and the columns are extracted. -/
def decodeAscii (hasR hasT hasN hasC hasL hasU : Bool) (len : Nat)
    (t : Str) : Except KError KeithleyData :=
  let count := if hasU then len - 1 else len
  let ds := if hasU then stripTokens UNITS t else t
  decodeCore hasR hasT hasN hasC hasL count (splitComma ds)

/-- `KeithleyData.__init__` as a pure function: text format decodes,
any other format raises `NotImplementedError` (lines 110-113). -/
def decode (fmt : Format) (elements : List Element) (data_string : Str) :
    Except KError KeithleyData :=
  match fmt with
  | Format.ascii =>
    decodeAscii (decide (Element.readings ∈ elements))
      (decide (Element.timestamp ∈ elements))
      (decide (Element.reading_number ∈ elements))
      (decide (Element.channel ∈ elements))
      (decide (Element.limits ∈ elements))
      (decide (Element.units ∈ elements))
      elements.length data_string
  | _ => Except.error KError.notImplemented

/-- `KeithleyData.mean` (lines 128-130): `np.mean` of the readings when
`self.readings is not None`, silently nothing otherwise.  (`np.mean` of
an *empty* array would be the float `NaN`, which has no counterpart in
`ℚ`; no claim touches that corner and theorems below avoid it.) -/
def KeithleyData.mean (d : KeithleyData) : Option ℚ :=
  d.readings.map (fun l => l.sum / (l.length : ℚ))

/-!
Facade model for `Keithley2700.range` (setter, lines 266-280).

The property machinery `Instrument.control` and the validator
`truncated_discrete_set` live in `pymeasure` modules outside this
repository snapshot; the parts of their behavior that the claims depend
on are modelled from the spec (see the doc comments below).  Everything
else (`MODES`, `RANGES`, the command strings, the mode check) is
translated from the source.
-/

/-- The measurement modes (`MODES` keys, lines 151-157). -/
inductive Mode
  | current
  | current_ac
  | voltage
  | voltage_ac
  | resistance
  | resistance_4W
  | period
  | frequency
  | temperature
  | continuity
deriving DecidableEq

/-- `MODES` (lines 151-157): mode name to SCPI code. -/
def MODES : Mode → Str
  | Mode.current => ("CURR:DC").data
  | Mode.current_ac => ("CURR:AC").data
  | Mode.voltage => ("VOLT:DC").data
  | Mode.voltage_ac => ("VOLT:AC").data
  | Mode.resistance => ("RES").data
  | Mode.resistance_4W => ("FRES").data
  | Mode.period => ("PER").data
  | Mode.frequency => ("FREQ").data
  | Mode.temperature => ("TEMP").data
  | Mode.continuity => ("CONT").data

/-- `RANGES` (lines 159-164): the range table for the modes that have
one, `none` for the four modes without (period, frequency, temperature,
continuity) — `mode in self.RANGES` is the membership test of line 276. -/
def RANGES : Mode → Option (List ℚ)
  | Mode.current => some [0.02, 0.1, 1, 3]
  | Mode.current_ac => some [1, 3]
  | Mode.voltage => some [0.1, 1, 10, 100, 1000]
  | Mode.voltage_ac => some [0.1, 1, 10, 100, 750]
  | Mode.resistance => some [1e2, 1e3, 1e4, 1e5, 1e5, 1e6, 1e7, 1e8]
  | Mode.resistance_4W => some [1e2, 1e3, 1e4, 1e5, 1e5, 1e6, 1e7, 1e8]
  | Mode.period => none
  | Mode.frequency => none
  | Mode.temperature => none
  | Mode.continuity => none

/-- Every mode, for the inverse lookup of the `map_values` machinery. -/
def allModes : List Mode :=
  [Mode.current, Mode.current_ac, Mode.voltage, Mode.voltage_ac,
   Mode.resistance, Mode.resistance_4W, Mode.period, Mode.frequency,
   Mode.temperature, Mode.continuity]

/-- A transport stub: the answer the instrument returns to an `ask`. -/
structure Transport where
  respond : Str → Str

/-- One recorded transport interaction.  `write` models
`self.write('{mode}:RANGe {value}'.format(...))` of lines 277-278 with
the command head and the numeric argument kept structured (the decimal
rendering of the value is irrelevant to every claim). -/
inductive TCall
  | ask (cmd : Str)
  | write (modeCode : Str) (value : ℚ)
deriving DecidableEq

/-- The get-command of the `mode` property (line 188). -/
def askModeCmd : Str := ("SENS:FUNC?").data

/-- Modelled from the spec: `truncated_discrete_set` lives in
`pymeasure.instruments.validators`, outside this snapshot.  Per spec
§4.2, the requested value is snapped to the nearest permitted entry at
or above it in the mode's (ascending) range table; a value beyond the
table is invalid. -/
def truncated_discrete_set (v : ℚ) (values : List ℚ) : Option ℚ :=
  values.find? (fun r => decide (v ≤ r))

/-- Modelled from the spec: reading `self.mode` (line 275) goes through
`Instrument.control` (not in this snapshot), which per spec §4.2/§6
re-queries the instrument with the get-command `SENS:FUNC?` and
inverse-maps the reply through `MODES` (`map_values=True`), after
`get_process` strips the quote characters (line 197).  The setter body
itself (mode check, range write, `ValueError`) is translated from lines
275-280.  The returned list is the ordered trace of transport calls. -/
def setRange (tr : Transport) (v : ℚ) : Except KError Unit × List TCall :=
  let resp := tr.respond askModeCmd
  let cleaned := resp.filter (fun c => c != '"')
  match allModes.find? (fun m => MODES m == cleaned) with
  | none => (Except.error KError.keyError, [TCall.ask askModeCmd])
  | some m =>
    match RANGES m with
    | some table =>
      match truncated_discrete_set v table with
      | some v' => (Except.ok (), [TCall.ask askModeCmd, TCall.write (MODES m) v'])
      | none => (Except.error KError.valueError, [TCall.ask askModeCmd])
    | none => (Except.error KError.valueError, [TCall.ask askModeCmd])

/-- A stub instrument whose current mode is `period`. -/
def perStub : Transport := Transport.mk (fun _ => ("PER").data)

/-!  General lemmas about the decoder. -/

deriving instance DecidableEq for Except

/-- The decoder reads its element list only through the list's length
and through membership tests (`'x' in self.elements`, `len(self.elements)`),
so two element lists of equal length and equal membership decode alike. -/
theorem decode_congr (fmt : Format) (e1 e2 : List Element) (t : Str)
    (hlen : e1.length = e2.length) (hmem : ∀ x, x ∈ e1 ↔ x ∈ e2) :
    decode fmt e1 t = decode fmt e2 t := by
  cases fmt with
  | ascii =>
    have hR : decide (Element.readings ∈ e1) = decide (Element.readings ∈ e2) :=
      decide_eq_decide.mpr (hmem Element.readings)
    have hT : decide (Element.timestamp ∈ e1) = decide (Element.timestamp ∈ e2) :=
      decide_eq_decide.mpr (hmem Element.timestamp)
    have hN : decide (Element.reading_number ∈ e1) = decide (Element.reading_number ∈ e2) :=
      decide_eq_decide.mpr (hmem Element.reading_number)
    have hC : decide (Element.channel ∈ e1) = decide (Element.channel ∈ e2) :=
      decide_eq_decide.mpr (hmem Element.channel)
    have hL : decide (Element.limits ∈ e1) = decide (Element.limits ∈ e2) :=
      decide_eq_decide.mpr (hmem Element.limits)
    have hU : decide (Element.units ∈ e1) = decide (Element.units ∈ e2) :=
      decide_eq_decide.mpr (hmem Element.units)
    simp only [decode, hR, hT, hN, hC, hL, hU, hlen]
  | single => rfl
  | double => rfl

/-- C10: For every raw text and every element list, decode's output
depends only on which element kinds are present in the list, not on
their declared order: decoding with any permutation of the same
elements list yields an identical decoded record set (the source
assigns columns in the fixed order readings, timestamp, reading_number,
channel, limits, lines 91-109). -/
theorem c10_order_irrelevant (fmt : Format) (e1 e2 : List Element)
    (t : Str) (h : e1.Perm e2) :
    decode fmt e1 t = decode fmt e2 t :=
  decode_congr fmt e1 e2 t h.length_eq (fun _ => h.mem_iff)

/-- Witness for C10 at a concrete permutation and text. -/
theorem c10_order_irrelevant_witness :
    decode Format.ascii [Element.timestamp, Element.readings]
        (("4.0,0.5,5.0,0.6").data) =
      decode Format.ascii [Element.readings, Element.timestamp]
        (("4.0,0.5,5.0,0.6").data) :=
  c10_order_irrelevant Format.ascii _ _ _ (by decide)

/-- C2: For the element list `[readings, timestamp]` and the text
format, decode splits the raw text on commas and de-interleaves it into
per-element columns; decoding `"1.0,0.1,2.0,0.2,3.0,0.3"` yields
readings `[1.0, 2.0, 3.0]` and timestamps `[0.1, 0.2, 0.3]`. -/
theorem c2_deinterleave :
    decode Format.ascii [Element.readings, Element.timestamp]
        (("1.0,0.1,2.0,0.2,3.0,0.3").data) =
      Except.ok
        { readings := some [1, 2, 3]
          timestamps := some [mkRat 1 10, mkRat 2 10, mkRat 3 10]
          reading_numbers := none
          channels := none
          limits := none
          limits_high2 := none
          limits_low2 := none
          limits_high1 := none
          limits_low1 := none } := by
  decide

set_option maxRecDepth 4096 in
/-- C1: for every limits value `v` in `[0, 255]`, the four decoded limit
flags are the pure bitwise function of `v` stated by the spec:
`highLimit2 = v AND 1 ≠ 0`, `lowLimit2 = v AND 2 ≠ 0`,
`highLimit1 = v AND 4 ≠ 0`, `lowLimit1 = v AND 8 ≠ 0`.  The decoder
stores the parsed value through the int8 cast `toInt8` and masks the
stored bit pattern (`limitFlag`, lines 104-108); the wrap-around
preserves the low eight bits, so the flags agree with the direct
bit test on `v`. -/
theorem c1_limit_flags (v : Nat) (h : v ≤ 255) :
    limitFlag (toInt8 (v : Int)) 1 = (v &&& 1 != 0) ∧
    limitFlag (toInt8 (v : Int)) 2 = (v &&& 2 != 0) ∧
    limitFlag (toInt8 (v : Int)) 4 = (v &&& 4 != 0) ∧
    limitFlag (toInt8 (v : Int)) 8 = (v &&& 8 != 0) := by
  revert h
  revert v
  decide

/-- Witness for C1 at `v = 9` (bits 0 and 3 set: highLimit2 and
lowLimit1 true, the other two false). -/
theorem c1_limit_flags_witness :
    limitFlag (toInt8 ((9 : Nat) : Int)) 1 = ((9 : Nat) &&& 1 != 0) ∧
    limitFlag (toInt8 ((9 : Nat) : Int)) 2 = ((9 : Nat) &&& 2 != 0) ∧
    limitFlag (toInt8 ((9 : Nat) : Int)) 4 = ((9 : Nat) &&& 4 != 0) ∧
    limitFlag (toInt8 ((9 : Nat) : Int)) 8 = ((9 : Nat) &&& 8 != 0) :=
  c1_limit_flags 9 (by decide)

/-- C7: for every raw text and element list, calling decode with a
binary (non-text) format value always fails with
`NotImplementedError` (lines 110-113), and produces no decoded
sequences (the error result carries no record). -/
theorem c7_binary_fails (fmt : Format) (elems : List Element) (t : Str)
    (h : fmt ≠ Format.ascii) :
    decode fmt elems t = Except.error KError.notImplemented := by
  cases fmt with
  | ascii => exact absurd rfl h
  | single => rfl
  | double => rfl

/-- Witness for C7 at the `single` binary format. -/
theorem c7_binary_fails_witness :
    decode Format.single [Element.readings] (("1.0,2.0").data) =
      Except.error KError.notImplemented :=
  c7_binary_fails Format.single _ _ (by decide)

/-!  C6: behavior on a flat field count that is not a multiple of the
per-record field count. -/

/-- C6 counterexample: with elements `[readings, timestamp]`
(`fieldCount = 2`) and three comma-separated fields, decode does NOT
fail — there is no divisibility check and no `ParseError` anywhere in
the constructor — it silently succeeds, assigning two fields to
readings and one to timestamps (columns of unequal length). -/
theorem c6_counterexample :
    decode Format.ascii [Element.readings, Element.timestamp]
        (("1.0,0.1,2.0").data) =
      Except.ok
        { readings := some [1, 2]
          timestamps := some [mkRat 1 10]
          reading_numbers := none
          channels := none
          limits := none
          limits_high2 := none
          limits_low2 := none
          limits_high1 := none
          limits_low1 := none } := by
  decide

/-- `n` comma-separated copies of the numeric field `1`. -/
def onesText : Nat → Str
  | 0 => []
  | 1 => ['1']
  | n + 2 => '1' :: ',' :: onesText (n + 1)

/-- Splitting `n ≥ 1` comma-joined unit fields recovers the `n` fields. -/
theorem splitComma_ones (m : Nat) :
    splitComma (onesText (m + 1)) = List.replicate (m + 1) ['1'] := by
  induction m with
  | zero => decide
  | succ k ih =>
    show splitComma ('1' :: ',' :: onesText (k + 1)) = _
    have h1 : (('1' : Char) = ',') = False := by decide
    have h2 : ((',' : Char) = ',') = True := by decide
    simp [splitComma, h1, h2, ih, List.replicate_succ]

/-- Both phases of the stride-2 slice of a constant list: starting in
take-phase keeps `⌈n/2⌉` entries, starting one step into the skip-phase
keeps `⌊n/2⌋`. -/
theorem takeEveryAux_two_replicate (a : α) :
    ∀ n, takeEveryAux 2 0 (List.replicate n a) = List.replicate ((n + 1) / 2) a ∧
      takeEveryAux 2 1 (List.replicate n a) = List.replicate (n / 2) a := by
  intro n
  induction n with
  | zero => exact ⟨rfl, rfl⟩
  | succ k ih =>
    constructor
    · show takeEveryAux 2 0 (a :: List.replicate k a) = _
      rw [show takeEveryAux 2 0 (a :: List.replicate k a) =
            a :: takeEveryAux 2 1 (List.replicate k a) from rfl]
      rw [ih.2]
      rw [show (k + 1 + 1) / 2 = k / 2 + 1 by omega]
      rfl
    · show takeEveryAux 2 1 (a :: List.replicate k a) = _
      rw [show takeEveryAux 2 1 (a :: List.replicate k a) =
            takeEveryAux 2 0 (List.replicate k a) from rfl]
      exact ih.1

/-- Dropping the head of a constant list. -/
theorem drop_one_replicate (a : α) (n : Nat) :
    (List.replicate n a).drop 1 = List.replicate (n - 1) a := by
  cases n with
  | zero => rfl
  | succ k => rfl

/-- Every unit field parses to the rational `1`. -/
theorem mapOpt_parse_ones (m : Nat) :
    mapOpt parseFloat? (List.replicate m ['1']) = some (List.replicate m (1 : ℚ)) := by
  induction m with
  | zero => rfl
  | succ k ih =>
    have hp : parseFloat? ['1'] = some 1 := by decide
    show mapOpt parseFloat? (['1'] :: List.replicate k ['1']) = _
    simp [mapOpt, hp, ih, List.replicate_succ]

/-- Bind on a successful `Except` computation. -/
theorem ebind_ok (a : α) (f : α → Except KError β) :
    (Except.ok a >>= f) = f a := rfl

/-- C6 (corrected): the constructor performs no field-count
divisibility check.  For every flat field count `n ≥ 1` — multiple of
the per-record field count or not — decoding `n` numeric fields with
elements `[readings, timestamp]` succeeds, silently assigning the
`⌈n/2⌉` even-indexed fields to readings and the `⌊n/2⌋` odd-indexed
fields to timestamps (unequal column lengths when `n` is odd); no
`ParseError` is ever raised. -/
theorem c6_amended (n : Nat) (h : 1 ≤ n) :
    decode Format.ascii [Element.readings, Element.timestamp] (onesText n) =
      Except.ok
        { readings := some (List.replicate ((n + 1) / 2) (1 : ℚ))
          timestamps := some (List.replicate (n / 2) (1 : ℚ))
          reading_numbers := none
          channels := none
          limits := none
          limits_high2 := none
          limits_low2 := none
          limits_high1 := none
          limits_low1 := none } := by
  obtain ⟨m, rfl⟩ : ∃ m, n = m + 1 := ⟨n - 1, by omega⟩
  have hr : pySlice (List.replicate (m + 1) (['1'] : Str)) 0 2 =
      List.replicate ((m + 1 + 1) / 2) ['1'] := by
    show takeEveryAux 2 0 ((List.replicate (m + 1) (['1'] : Str)).drop 0) = _
    rw [List.drop_zero, (takeEveryAux_two_replicate ['1'] (m + 1)).1]
  have ht : pySlice (List.replicate (m + 1) (['1'] : Str)) 1 2 =
      List.replicate ((m + 1) / 2) ['1'] := by
    show takeEveryAux 2 0 ((List.replicate (m + 1) (['1'] : Str)).drop 1) = _
    rw [drop_one_replicate, show m + 1 - 1 = m from rfl,
      (takeEveryAux_two_replicate (['1'] : Str) m).1]
  have hcolR : col? true (List.replicate ((m + 1 + 1) / 2) (['1'] : Str)) parseFloat? =
      Except.ok (some (List.replicate ((m + 1 + 1) / 2) (1 : ℚ))) := by
    simp [col?, mapOpt_parse_ones]
  have hcolT : col? true (List.replicate ((m + 1) / 2) (['1'] : Str)) parseFloat? =
      Except.ok (some (List.replicate ((m + 1) / 2) (1 : ℚ))) := by
    simp [col?, mapOpt_parse_ones]
  show decodeCore true true false false false 2 (splitComma (onesText (m + 1))) = _
  rw [splitComma_ones m]
  unfold decodeCore
  rw [show startT true = 1 from rfl]
  rw [hr, ht, hcolR, hcolT]
  rfl

/-- Witness for C6 (corrected) at the odd field count 3 (not a
multiple of 2): decode succeeds with readings of length 2 and
timestamps of length 1. -/
theorem c6_amended_witness :
    decode Format.ascii [Element.readings, Element.timestamp] (onesText 3) =
      Except.ok
        { readings := some (List.replicate ((3 + 1) / 2) (1 : ℚ))
          timestamps := some (List.replicate (3 / 2) (1 : ℚ))
          reading_numbers := none
          channels := none
          limits := none
          limits_high2 := none
          limits_low2 := none
          limits_high1 := none
          limits_low1 := none } :=
  c6_amended 3 (by decide)

/-!  C9: `mean` when no readings are present. -/

/-- An inactive element contributes `none` regardless of its column. -/
theorem col?_false {α : Type} (xs : List Str) (p : Str → Option α) :
    col? false xs p = Except.ok none := rfl

/-- If readings were not requested, any successfully constructed record
has no readings sequence. -/
theorem decodeCore_readings_none (hasT hasN hasC hasL : Bool)
    (count : Nat) (data : List Str) (r : KeithleyData)
    (h : decodeCore false hasT hasN hasC hasL count data = Except.ok r) :
    r.readings = none := by
  unfold decodeCore at h
  simp only [col?_false] at h
  split at h
  · exact absurd h (by simp)
  · split at h
    · exact absurd h (by simp)
    · split at h
      · exact absurd h (by simp)
      · split at h
        · exact absurd h (by simp)
        · simp only [Except.ok.injEq] at h
          subst h
          rfl

/-- C9 counterexample: decoding with no `readings` element succeeds with
an absent readings sequence, and `mean` on that record silently returns
the absent value — it raises no `EmptyInput` (or any other) error. -/
theorem c9_counterexample :
    decode Format.ascii [Element.timestamp] (("0.1").data) =
      Except.ok
        { readings := none
          timestamps := some [mkRat 1 10]
          reading_numbers := none
          channels := none
          limits := none
          limits_high2 := none
          limits_low2 := none
          limits_high1 := none
          limits_low1 := none } ∧
    KeithleyData.mean
        { readings := none
          timestamps := some [mkRat 1 10]
          reading_numbers := none
          channels := none
          limits := none
          limits_high2 := none
          limits_low2 := none
          limits_high1 := none
          limits_low1 := none } = none := by
  constructor
  · decide
  · rfl

/-- C9 (corrected): `mean` returns the arithmetic mean of the readings
sequence when one is present and non-empty; when no readings are
present (the `readings` element was not requested, so the field is
absent) it silently returns the absent value — the source returns
`None` rather than raising an `EmptyInput` error (lines 128-130). -/
theorem c9_amended :
    (∀ (elems : List Element) (t : Str) (r : KeithleyData),
        decode Format.ascii elems t = Except.ok r →
        Element.readings ∉ elems → KeithleyData.mean r = none) ∧
    (∀ (r : KeithleyData) (l : List ℚ), r.readings = some l → l ≠ [] →
        KeithleyData.mean r = some (l.sum / (l.length : ℚ))) := by
  constructor
  · intro elems t r h hmem
    have hfalse : decide (Element.readings ∈ elems) = false :=
      decide_eq_false hmem
    simp only [decode] at h
    rw [hfalse] at h
    unfold decodeAscii at h
    have hre := decodeCore_readings_none _ _ _ _ _ _ _ h
    simp [KeithleyData.mean, hre]
  · intro r l hl _
    simp [KeithleyData.mean, hl]

/-- Witness for C9 (corrected): a record decoded without readings has
`mean` absent; a record with readings `[2, 4]` has `mean` their
arithmetic mean. -/
theorem c9_amended_witness :
    KeithleyData.mean
        { readings := none
          timestamps := some [mkRat 7 10]
          reading_numbers := none
          channels := none
          limits := none
          limits_high2 := none
          limits_low2 := none
          limits_high1 := none
          limits_low1 := none } = none ∧
    KeithleyData.mean
        { readings := some [2, 4]
          timestamps := none
          reading_numbers := none
          channels := none
          limits := none
          limits_high2 := none
          limits_low2 := none
          limits_high1 := none
          limits_low1 := none } =
      some ((([2, 4] : List ℚ).sum) / ((([2, 4] : List ℚ).length) : ℚ)) :=
  ⟨c9_amended.1 [Element.timestamp] (("0.7").data) _ (by decide) (by decide),
   c9_amended.2 _ [2, 4] rfl (by decide)⟩

/-!  C3: declared order versus the fixed extraction order. -/

/-- C3 counterexample: with the declared order `[timestamp, readings]`
the claim predicts that timestamp (declared first) reads column 0
(`"0.1"`) and readings reads column 1 (`"1.0"`).  The code instead
always gives readings column 0: decoding `"0.1,1.0"` produces
readings `[0.1]` and timestamps `[1.0]`, not readings `[1.0]`. -/
theorem c3_counterexample :
    decode Format.ascii [Element.timestamp, Element.readings]
        (("0.1,1.0").data) =
      Except.ok
        { readings := some [mkRat 1 10]
          timestamps := some [1]
          reading_numbers := none
          channels := none
          limits := none
          limits_high2 := none
          limits_low2 := none
          limits_high1 := none
          limits_low1 := none } ∧
    (some [mkRat 1 10] : Option (List ℚ)) ≠ some [1] := by
  constructor
  · decide
  · decide

/-- The fixed order in which the source's extraction branches run
(lines 91-103), with `units` (which consumes no column) last. -/
def canonicalElements : List Element :=
  [Element.readings, Element.timestamp, Element.reading_number,
   Element.channel, Element.limits, Element.units]

/-- C3 (corrected): columns are not assigned by declared order.  For
every duplicate-free element list, decoding is identical to decoding
with the same elements rearranged into the fixed canonical order
readings, timestamp, reading_number, channel, limits (units last): each
active non-Units element reads the column at its rank among the active
non-Units elements in *canonical* order, whatever order the caller
declared. -/
theorem c3_amended (fmt : Format) (elems : List Element) (t : Str)
    (hnd : elems.Nodup) :
    decode fmt elems t =
      decode fmt (canonicalElements.filter (fun k => decide (k ∈ elems))) t := by
  have hall : ∀ x : Element, x ∈ canonicalElements := by
    intro x
    cases x <;> decide
  have hmem : ∀ x, x ∈ canonicalElements.filter (fun k => decide (k ∈ elems)) ↔
      x ∈ elems := by
    intro x
    rw [List.mem_filter]
    simp only [decide_eq_true_eq]
    exact ⟨fun hx => hx.2, fun hx => ⟨hall x, hx⟩⟩
  have hcan : canonicalElements.Nodup := by decide
  have hperm : (canonicalElements.filter (fun k => decide (k ∈ elems))).Perm elems :=
    (List.perm_ext_iff_of_nodup (hcan.filter _) hnd).mpr hmem
  exact decode_congr fmt elems _ t hperm.length_eq.symm (fun x => (hmem x).symm)

/-- Witness for C3 (corrected) at the reversed declaration
`[timestamp, readings]`. -/
theorem c3_amended_witness :
    decode Format.ascii [Element.timestamp, Element.readings]
        (("2.5,7.5").data) =
      decode Format.ascii
        (canonicalElements.filter
          (fun k => decide (k ∈ [Element.timestamp, Element.readings])))
        (("2.5,7.5").data) :=
  c3_amended Format.ascii _ _ (by decide)

/-!  C4: pre-stripping units and removing the `units` element. -/

/-- Removing the single `units` occurrence from a duplicate-free element
list shortens it by exactly one. -/
theorem length_filter_erase_units (elems : List Element)
    (hnd : elems.Nodup) (hmem : Element.units ∈ elems) :
    (elems.filter (fun e => e != Element.units)).length = elems.length - 1 := by
  induction elems with
  | nil => cases hmem
  | cons a rest ih =>
    rcases List.mem_cons.mp hmem with rfl | hmem'
    · have hrest : Element.units ∉ rest := (List.nodup_cons.mp hnd).1
      have hfil : rest.filter (fun e => e != Element.units) = rest := by
        apply List.filter_eq_self.mpr
        intro b hb
        simp only [bne_iff_ne, ne_eq, decide_eq_true_eq]
        rintro rfl
        exact hrest hb
      simp [List.filter_cons, hfil]
    · have hnd' := (List.nodup_cons.mp hnd).2
      have ha : (a != Element.units) = true := by
        simp only [bne_iff_ne, ne_eq, decide_eq_true_eq]
        rintro rfl
        exact (List.nodup_cons.mp hnd).1 hmem'
      have hpos : 1 ≤ rest.length :=
        List.length_pos.mpr (List.ne_nil_of_mem hmem')
      rw [List.filter_cons, if_pos ha]
      simp only [List.length_cons, ih hnd' hmem']
      omega

/-- C4 (with the spec's element lists, which are ordered subsets of the
element kinds and hence duplicate-free): decoding with an element list
containing `units` equals decoding the same text with every unit token
pre-stripped and `units` removed from the element list — and `units`
itself never produces a retained output sequence (the record has no
units field at all).  In particular decoding `"1.0VDC,2.0VDC"` with
`[readings, units]` yields readings `[1.0, 2.0]`. -/
theorem c4_units_prestrip :
    (∀ (elems : List Element) (t : Str), elems.Nodup → Element.units ∈ elems →
        decode Format.ascii elems t =
          decode Format.ascii (elems.filter (fun e => e != Element.units))
            (stripTokens UNITS t)) ∧
    decode Format.ascii [Element.readings, Element.units]
        (("1.0VDC,2.0VDC").data) =
      Except.ok
        { readings := some [1, 2]
          timestamps := none
          reading_numbers := none
          channels := none
          limits := none
          limits_high2 := none
          limits_low2 := none
          limits_high1 := none
          limits_low1 := none } := by
  constructor
  · intro elems t hnd hmem
    have hfmem : ∀ x : Element,
        x ∈ elems.filter (fun e => e != Element.units) ↔
          (x ∈ elems ∧ x ≠ Element.units) := by
      intro x
      rw [List.mem_filter]
      simp [bne_iff_ne]
    have hU1 : decide (Element.units ∈ elems) = true := decide_eq_true hmem
    have hU2 : decide
        (Element.units ∈ elems.filter (fun e => e != Element.units)) = false := by
      apply decide_eq_false
      rw [hfmem]
      simp
    have hR : decide
          (Element.readings ∈ elems.filter (fun e => e != Element.units)) =
        decide (Element.readings ∈ elems) :=
      decide_eq_decide.mpr (by rw [hfmem]; simp)
    have hT : decide
          (Element.timestamp ∈ elems.filter (fun e => e != Element.units)) =
        decide (Element.timestamp ∈ elems) :=
      decide_eq_decide.mpr (by rw [hfmem]; simp)
    have hN : decide
          (Element.reading_number ∈ elems.filter (fun e => e != Element.units)) =
        decide (Element.reading_number ∈ elems) :=
      decide_eq_decide.mpr (by rw [hfmem]; simp)
    have hC : decide
          (Element.channel ∈ elems.filter (fun e => e != Element.units)) =
        decide (Element.channel ∈ elems) :=
      decide_eq_decide.mpr (by rw [hfmem]; simp)
    have hL : decide
          (Element.limits ∈ elems.filter (fun e => e != Element.units)) =
        decide (Element.limits ∈ elems) :=
      decide_eq_decide.mpr (by rw [hfmem]; simp)
    have hlen := length_filter_erase_units elems hnd hmem
    simp only [decode, hU1, hU2, hR, hT, hN, hC, hL, hlen]
    unfold decodeAscii
    simp
  · decide

/-- Witness for C4: a concrete instance of the pre-strip equivalence. -/
theorem c4_units_prestrip_witness :
    decode Format.ascii [Element.readings, Element.units]
        (("3.0VDC").data) =
      decode Format.ascii
        ([Element.readings, Element.units].filter (fun e => e != Element.units))
        (stripTokens UNITS (("3.0VDC").data)) :=
  c4_units_prestrip.1 _ _ (by decide) (by decide)

/-!  C5: order-(in)dependence of unit-token removal. -/

/-- Fuel irrelevance for the replace worker: any two fuels at least the
string length give the same result. -/
theorem replaceAllF_congr (p : Str) :
    ∀ (n : Nat) (s : Str), s.length ≤ n →
      ∀ f1 f2, s.length ≤ f1 → s.length ≤ f2 →
        replaceAllF p f1 s = replaceAllF p f2 s := by
  intro n
  induction n with
  | zero =>
    intro s hs f1 f2 h1 h2
    have hnil : s = [] := List.eq_nil_of_length_eq_zero (by omega)
    subst hnil
    cases f1 <;> cases f2 <;> rfl
  | succ n ih =>
    intro s hs f1 f2 h1 h2
    cases s with
    | nil => cases f1 <;> cases f2 <;> rfl
    | cons c rest =>
      simp only [List.length_cons] at hs h1 h2
      cases f1 with
      | zero => omega
      | succ g1 =>
        cases f2 with
        | zero => omega
        | succ g2 =>
          show replaceAllF p (g1 + 1) (c :: rest) = replaceAllF p (g2 + 1) (c :: rest)
          unfold replaceAllF
          by_cases hc : p ≠ [] ∧ p.isPrefixOf (c :: rest)
          · rw [if_pos hc, if_pos hc]
            have hp1 : 1 ≤ p.length := List.length_pos.mpr hc.1
            have hd : ((c :: rest).drop p.length).length ≤ n := by
              simp only [List.length_drop, List.length_cons]
              omega
            exact ih _ hd g1 g2
              (by simp only [List.length_drop, List.length_cons]; omega)
              (by simp only [List.length_drop, List.length_cons]; omega)
          · rw [if_neg hc, if_neg hc]
            rw [ih rest (by omega) g1 g2 (by omega) (by omega)]

/-- One-step unfolding of `replaceAll` on a non-empty string. -/
theorem replaceAll_cons (p : Str) (c : Char) (rest : Str) :
    replaceAll p (c :: rest) =
      if p ≠ [] ∧ p.isPrefixOf (c :: rest) then
        replaceAll p ((c :: rest).drop p.length)
      else c :: replaceAll p rest := by
  show replaceAllF p (rest.length + 1) (c :: rest) = _
  unfold replaceAllF
  by_cases hc : p ≠ [] ∧ p.isPrefixOf (c :: rest)
  · rw [if_pos hc, if_pos hc]
    have hp1 : 1 ≤ p.length := List.length_pos.mpr hc.1
    exact replaceAllF_congr p (rest.length + 1) _
      (by simp only [List.length_drop, List.length_cons]; omega)
      rest.length ((c :: rest).drop p.length).length
      (by simp only [List.length_drop, List.length_cons]; omega)
      le_rfl
  · rw [if_neg hc, if_neg hc]
    rfl

/-- Deleting a pattern that begins with a character absent from `x`
leaves the prefix `x` of `x ++ s` untouched. -/
theorem replaceAll_append (p : Str) (hd : Char) (tl : Str)
    (hp : p = hd :: tl) (x s : Str) (hx : hd ∉ x) :
    replaceAll p (x ++ s) = x ++ replaceAll p s := by
  induction x with
  | nil => simp
  | cons c cs ih =>
    have hx' : hd ∉ cs := fun hin => hx (List.mem_cons_of_mem _ hin)
    have hne : ¬(p ≠ [] ∧ p.isPrefixOf (c :: (cs ++ s))) := by
      rintro ⟨-, hpre⟩
      subst hp
      simp only [List.isPrefixOf, Bool.and_eq_true, beq_iff_eq] at hpre
      exact hx (hpre.1 ▸ List.mem_cons_self _ _)
    show replaceAll p (c :: (cs ++ s)) = (c :: cs) ++ replaceAll p s
    rw [replaceAll_cons, if_neg hne, ih hx']
    rfl

/-- Deleting a pattern that begins with a character absent from `x`
leaves `x` unchanged. -/
theorem replaceAll_no_occur (p : Str) (hd : Char) (tl : Str)
    (hp : p = hd :: tl) (x : Str) (hx : hd ∉ x) :
    replaceAll p x = x := by
  have h := replaceAll_append p hd tl hp x [] hx
  have h2 : replaceAll p ([] : Str) = [] := rfl
  rw [h2] at h
  rw [List.append_nil] at h
  exact h

/-- The source's token list with `SEC` moved before `SECS` (still a
permutation of the Unit Token Set). -/
def unitsSwapped : List Str :=
  [("ADC").data, ("AAC").data, ("VDC").data, ("VAC").data, ("SEC").data,
   ("HZ").data, ("SECS").data, ("RDNG#").data, ("LIMITS").data]

/-- C5 counterexample: the tokens are NOT disjoint — `SEC` is a proper
substring of `SECS` — and processing order changes the result: on the
text `"SECS"`, the source's order removes the whole token (result
`""`), while an order with `SEC` first leaves a stray `"S"`. -/
theorem c5_counterexample :
    unitsSwapped.Perm UNITS ∧
    stripTokens unitsSwapped (("SECS").data) ≠
      stripTokens UNITS (("SECS").data) := by
  constructor
  · decide
  · decide

/-- Characters that can appear in a numeric field of the raw text. -/
def isNumChar (c : Char) : Bool :=
  c.isDigit || c = '.' || c = '+' || c = '-' || c = ','

/-- C5 (corrected): removal order matters in general because `SEC` is a
substring of `SECS`; the decoder's removal runs in the source's fixed
order, in which `SECS` precedes `SEC`, so a glued `SECS` unit suffix is
removed whole: for every numeric text `x` (digits, dot, sign, comma),
stripping `x ++ "SECS"` in the fixed order yields exactly `x`, with no
stray characters. -/
theorem c5_amended (x : Str) (hx : ∀ c ∈ x, isNumChar c = true) :
    stripTokens UNITS (x ++ ("SECS").data) = x := by
  have hA : ('A' : Char) ∉ x := fun hm => absurd (hx _ hm) (by decide)
  have hV : ('V' : Char) ∉ x := fun hm => absurd (hx _ hm) (by decide)
  have hS : ('S' : Char) ∉ x := fun hm => absurd (hx _ hm) (by decide)
  have hH : ('H' : Char) ∉ x := fun hm => absurd (hx _ hm) (by decide)
  have hR : ('R' : Char) ∉ x := fun hm => absurd (hx _ hm) (by decide)
  have hL : ('L' : Char) ∉ x := fun hm => absurd (hx _ hm) (by decide)
  simp only [stripTokens, UNITS, List.foldl_cons, List.foldl_nil]
  rw [replaceAll_append (("ADC").data) 'A' (("DC").data) rfl x (("SECS").data) hA,
    show replaceAll (("ADC").data) (("SECS").data) = ("SECS").data from by decide,
    replaceAll_append (("AAC").data) 'A' (("AC").data) rfl x (("SECS").data) hA,
    show replaceAll (("AAC").data) (("SECS").data) = ("SECS").data from by decide,
    replaceAll_append (("VDC").data) 'V' (("DC").data) rfl x (("SECS").data) hV,
    show replaceAll (("VDC").data) (("SECS").data) = ("SECS").data from by decide,
    replaceAll_append (("VAC").data) 'V' (("AC").data) rfl x (("SECS").data) hV,
    show replaceAll (("VAC").data) (("SECS").data) = ("SECS").data from by decide,
    replaceAll_append (("SECS").data) 'S' (("ECS").data) rfl x (("SECS").data) hS,
    show replaceAll (("SECS").data) (("SECS").data) = ([] : Str) from by decide,
    List.append_nil,
    replaceAll_no_occur (("HZ").data) 'H' (("Z").data) rfl x hH,
    replaceAll_no_occur (("SEC").data) 'S' (("EC").data) rfl x hS,
    replaceAll_no_occur (("RDNG#").data) 'R' (("DNG#").data) rfl x hR,
    replaceAll_no_occur (("LIMITS").data) 'L' (("IMITS").data) rfl x hL]

/-- Witness for C5 (corrected): the field `0.5SECS` strips to `0.5`. -/
theorem c5_amended_witness :
    stripTokens UNITS ((("0.5").data) ++ (("SECS").data)) = ("0.5").data :=
  c5_amended (("0.5").data) (by decide)

/-!  C8: `setRange` in a mode without a range table. -/

/-- C8 counterexample: setting the range while the instrument is in
`period` mode does fail (the source raises `ValueError` before writing
any command), but it does NOT leave the transport untouched: reading
`self.mode` (line 275) first issues the `SENS:FUNC?` query, so one
`ask` is recorded — the trace is not empty. -/
theorem c8_counterexample :
    setRange perStub 1 =
      (Except.error KError.valueError, [TCall.ask askModeCmd]) ∧
    [TCall.ask askModeCmd] ≠ ([] : List TCall) := by
  constructor
  · decide
  · decide

/-- C8 (corrected): when the instrument reports a mode without a range
table (period, frequency, temperature, continuity), `setRange` fails
with the unsupported-mode `ValueError` and writes nothing — but it
first issues exactly one transport call, the `ask SENS:FUNC?` mode
query, rather than none. -/
theorem c8_amended (tr : Transport) (v : ℚ) (m : Mode)
    (h1 : tr.respond askModeCmd = MODES m) (h2 : RANGES m = none) :
    setRange tr v =
      (Except.error KError.valueError, [TCall.ask askModeCmd]) := by
  have hfind : List.find?
      (fun m' => MODES m' == List.filter (fun c => c != '"') (MODES m))
      allModes = some m := by
    cases m <;> decide
  simp only [setRange, h1]
  rw [hfind]
  show (match RANGES m with
    | some table =>
      match truncated_discrete_set v table with
      | some v' => (Except.ok (), [TCall.ask askModeCmd, TCall.write (MODES m) v'])
      | none => (Except.error KError.valueError, [TCall.ask askModeCmd])
    | none => (Except.error KError.valueError, [TCall.ask askModeCmd])) =
    (Except.error KError.valueError, [TCall.ask askModeCmd])
  rw [h2]

/-- Witness for C8 (corrected) with a stub transport whose current mode
is `period`. -/
theorem c8_amended_witness :
    setRange perStub 1 =
      (Except.error KError.valueError, [TCall.ask askModeCmd]) :=
  c8_amended perStub 1 Mode.period (by decide) (by decide)
